import Mathlib

/-!
# Verification of the market-making quoting engine

Shallow embedding, over exact rational arithmetic `ℚ`, of the market-making
core of the `agent-trading-sdk` repository:

* `src/orderly_agent/mm_runner.py` — the function-based engine
  (`calculate_volatility`, `run_mm_cycle`, `run_loop`);
* `src/orderly_agent/market_maker.py` — the class-based engine
  (`MarketMaker._calculate_quotes`, `MarketMaker.run_once`);
* `src/arthur/client.py` — the `Position` dataclass and its
  `pnl_percent` accessor (identical to the `Position` that the two
  engines obtain from their package client module).

Python floats are idealised as rationals.  `round(x, 5)` is modelled as
rounding `x` to the nearest multiple of `10⁻⁵` (Mathlib's `round`, i.e.
half-up; Python uses half-even, which differs only on exact ties, and no
statement below depends on tie behaviour).  External collaborators
(the exchange transport) are modelled as an environment record supplying
the values and outcomes the engine reads in one cycle; a Python exception
raised by a collaborator call is an `Except.error`, and the engine's
`try/except` blocks become matches on those values.
-/

namespace MM

/-- Python `round(x, 5)`: round to 5 decimal places (the venue price tick). -/
def round5 (x : ℚ) : ℚ := ((round (x * 100000) : ℤ) : ℚ) / 100000

/-- Python `l[-n:]`: the last `n` elements of `l` (all of `l` when shorter). -/
def lastN (n : Nat) (l : List ℚ) : List ℚ := l.drop (l.length - n)

/-- Maximum of a price list, as Python `max(prices)` on a nonempty list
(0 on the empty list, which the caller never passes). -/
def listMax : List ℚ → ℚ
  | [] => 0
  | x :: xs => xs.foldl max x

/-- Minimum of a price list, as Python `min(prices)`. -/
def listMin : List ℚ → ℚ
  | [] => 0
  | x :: xs => xs.foldl min x

/-- Function `calculate_volatility` of mm_runner.py (lines 53–57):
`((max(prices) - min(prices)) / prices[-1]) * 100`, and `0` when fewer
than 2 samples are stored. -/
def calculate_volatility (prices : List ℚ) : ℚ :=
  if prices.length < 2 then 0
  else ((listMax prices - listMin prices) / prices.getLastD 0) * 100

/-- Position side, `"LONG"` / `"SHORT"` in the source. -/
inductive Side where
  | LONG
  | SHORT
deriving DecidableEq

/-- The `Position` dataclass of arthur/client.py (lines 19–34); also the
`Position` that `mm_runner.py` and `market_maker.py` import from the
package client module. -/
structure Position where
  side : Side
  size : ℚ
  entry_price : ℚ
  mark_price : ℚ
  unrealized_pnl : ℚ
  leverage : ℚ
deriving DecidableEq

/-- Accessor `Position.pnl_percent` (arthur/client.py lines 30–34):
`0` when `entry_price == 0`; otherwise
`(unrealized_pnl / (size * entry_price)) * 100`, where the Python float
division raises `ZeroDivisionError` when `size * entry_price == 0`
(i.e. `size == 0` on that branch), modelled as `none`. -/
def Position.pnl_percent (p : Position) : Option ℚ :=
  if p.entry_price = 0 then some 0
  else if p.size * p.entry_price = 0 then none
  else some ((p.unrealized_pnl / (p.size * p.entry_price)) * 100)

/-- The configuration fields `run_mm_cycle` reads from the JSON config
(`config["market_making"]`, `config.get("volatility", {})`,
`config["risk"]`, `config["flags"]`), with the `.get` defaults already
resolved to values. -/
structure MMConfig where
  base_spread_bps : ℚ
  min_spread_bps : ℚ
  max_spread_bps : ℚ   -- mm.get("max_spread_bps", 100)
  order_size_usd : ℚ
  skew_per_100_usd : ℚ -- mm.get("skew_per_100_usd", 10)
  vol_enabled : Bool                -- vol_cfg.get("enabled")
  vol_threshold_pct : ℚ             -- vol_cfg.get("threshold_pct", 1.5)
  vol_pause_threshold_pct : ℚ       -- vol_cfg.get("pause_threshold_pct", 5)
  vol_spread_multiplier : ℚ         -- vol_cfg.get("spread_multiplier", 2.0)
  stop_loss_pct : ℚ
  take_profit_pct : ℚ               -- risk.get("take_profit_pct", 100)
  daily_loss_limit_usd : ℚ          -- risk.get("daily_loss_limit_usd", 30)
  max_position_usd : ℚ
  dry_run : Bool                    -- config["flags"].get("dry_run")
deriving DecidableEq

/-- The `MMConfig` dataclass of market_maker.py (lines 18–48): the fields
the class-based engine reads. -/
structure MMCConfig where
  base_spread_bps : ℚ
  min_spread_bps : ℚ
  order_size_usd : ℚ
  max_inventory_usd : ℚ
  skew_per_100_usd : ℚ
  max_position_usd : ℚ
  stop_loss_pct : ℚ
  daily_loss_limit_usd : ℚ
  dry_run : Bool
  log_quotes : Bool
deriving DecidableEq

/-- A computed quote: the `skew_bps`, the `bid_price` / `ask_price` local
variables after the minimum-spread enforcement but before the 5-decimal
rounding (`bid_raw`, `ask_raw`), the rounded prices (`bid`, `ask`), and
the integer `size`. -/
structure QuoteCalc where
  skew_bps : ℚ
  bid_raw : ℚ
  ask_raw : ℚ
  bid : ℚ
  ask : ℚ
  size : ℤ
deriving DecidableEq

/-- The quote section of `run_mm_cycle` (mm_runner.py lines 245–284):
volatility spread adjustment, spread cap/floor, inventory skew, quote
prices, minimum-spread enforcement, tick rounding, and size. -/
def runnerQuote (cfg : MMConfig) (volatility mid inventory_usd : ℚ) : QuoteCalc :=
  -- 6. Calculate spread with adjustments
  let base_spread0 := cfg.base_spread_bps
  let base_spread1 :=
    if cfg.vol_enabled ∧ volatility > cfg.vol_threshold_pct then
      base_spread0 * cfg.vol_spread_multiplier
    else base_spread0
  -- Cap spread
  let base_spread2 := min base_spread1 cfg.max_spread_bps
  let base_spread := max base_spread2 cfg.min_spread_bps
  -- 7. Calculate inventory skew
  let skew_bps := (inventory_usd / 100) * cfg.skew_per_100_usd
  -- 8. Calculate quote prices
  let half_spread := (base_spread / 10000) * mid / 2
  let skew_amount := (skew_bps / 10000) * mid
  let bid_price0 := mid - half_spread - skew_amount
  let ask_price0 := mid + half_spread - skew_amount
  -- Ensure minimum spread: widen both sides by half the shortfall
  let min_spread := (cfg.min_spread_bps / 10000) * mid
  let ba :=
    if ask_price0 - bid_price0 < min_spread then
      (bid_price0 - (min_spread - (ask_price0 - bid_price0)) / 2,
       ask_price0 + (min_spread - (ask_price0 - bid_price0)) / 2)
    else (bid_price0, ask_price0)
  -- Round to tick
  let bid_price := round5 ba.1
  let ask_price := round5 ba.2
  -- Calculate size
  let size := max 1 (round (cfg.order_size_usd / mid))
  ⟨skew_bps, ba.1, ba.2, bid_price, ask_price, size⟩

/-- Method `MarketMaker._calculate_quotes` (market_maker.py lines 189–229). -/
def calculateQuotes (cfg : MMCConfig) (mid_price inventory_usd : ℚ) : QuoteCalc :=
  -- Base spread
  let spread_bps := cfg.base_spread_bps
  -- Inventory skew
  let skew_bps := (inventory_usd / 100) * cfg.skew_per_100_usd
  -- Calculate prices
  let half_spread := (spread_bps / 10000) * mid_price / 2
  let skew_amount := (skew_bps / 10000) * mid_price
  let bid_price0 := mid_price - half_spread - skew_amount
  let ask_price0 := mid_price + half_spread - skew_amount
  -- Ensure minimum spread: widen symmetrically
  let min_spread := (cfg.min_spread_bps / 10000) * mid_price
  let ba :=
    if ask_price0 - bid_price0 < min_spread then
      (bid_price0 - (min_spread - (ask_price0 - bid_price0)) / 2,
       ask_price0 + (min_spread - (ask_price0 - bid_price0)) / 2)
    else (bid_price0, ask_price0)
  -- Calculate size, floored at 1
  let size := max 1 (round (cfg.order_size_usd / mid_price))
  -- Round prices to quote tick (0.00001)
  ⟨skew_bps, ba.1, ba.2, round5 ba.1, round5 ba.2, size⟩

/-- The `MMState` dataclass (mm_runner.py lines 28–38), the fields the cycle reads and
writes; the wall-clock bookkeeping fields (`last_quote_time`,
`session_start`) and `order_ids` are not modelled. -/
structure MMState where
  last_prices : List ℚ
  starting_balance : ℚ
deriving DecidableEq

deriving instance DecidableEq for Except

/-- One cycle's interactions with the external collaborators (the signed
transport): the values returned, and for each fallible call its outcome.
A Python exception raised by the call is `Except.error` with the
exception's message. `get_total_collateral` swallows its own errors
(returning 0), so it is an unconditional value. -/
structure CycleEnv where
  collateral : ℚ                                 -- get_total_collateral
  cancelOk : Bool                                -- cancel_all_orders (failure swallowed)
  spreadResult : Except String (ℚ × ℚ)           -- client.spread → (mid, spread_bps)
  positionResult : Except String (Option Position)  -- client.position
  closeResult : Except String Unit               -- client.close
  bidResult : Except String String               -- client.limit_buy → order_id
  askResult : Except String String               -- client.limit_sell → order_id
deriving DecidableEq

/-- The `result["action"]` values `run_mm_cycle` can produce. -/
inductive MMAction where
  | daily_loss_limit_hit
  | paused_high_volatility
  | stop_loss_triggered
  | take_profit_triggered
  | quoted
  | dry_run
  | error
deriving DecidableEq

/-- The `result["position"]` sub-dict (mm_runner.py lines 215–221). -/
structure PositionView where
  side : Side
  size : ℚ
  entry : ℚ
  pnl : ℚ
  pnl_pct : ℚ
deriving DecidableEq

/-- The `result["quotes"]` sub-dict (mm_runner.py lines 286–291). -/
structure QuoteView where
  bid : ℚ
  ask : ℚ
  size : ℤ
  spread_bps : ℚ
deriving DecidableEq

/-- An entry of `result["orders"]` (mm_runner.py lines 308, 315). -/
structure OrderRec where
  side : String
  price : ℚ
  id : String
deriving DecidableEq

/-- The `result` dict built by `run_mm_cycle`, with `Option` for keys that
are only present on some paths, plus instrumentation booleans recording
which collaborator calls the cycle made (`cancelCalled` for
`cancel_all_orders`, `closeAttempted` for `client.close`, `bidAttempted` /
`askAttempted` for `client.limit_buy` / `client.limit_sell`). -/
structure CycleResult where
  action : Option MMAction
  orders : List OrderRec
  position : Option PositionView
  pnl : ℚ
  session_pnl : ℚ
  collateral : ℚ
  mid : Option ℚ
  market_spread_bps : Option ℚ
  volatility_pct : Option ℚ
  inventory_usd : Option ℚ
  skew_bps : Option ℚ
  volatility_adjusted : Bool
  quotes : Option QuoteView
  closed : Bool
  error : Option String
  bid_error : Option String
  ask_error : Option String
  cancelCalled : Bool
  closeAttempted : Bool
  bidAttempted : Bool
  askAttempted : Bool
deriving DecidableEq

/-- The freshly initialised `result` dict (mm_runner.py lines 147–153). -/
def initResult : CycleResult :=
  { action := none, orders := [], position := none, pnl := 0
    session_pnl := 0, collateral := 0, mid := none, market_spread_bps := none
    volatility_pct := none, inventory_usd := none, skew_bps := none
    volatility_adjusted := false, quotes := none, closed := false
    error := none, bid_error := none, ask_error := none
    cancelCalled := false, closeAttempted := false
    bidAttempted := false, askAttempted := false }

/-- Steps 4–5 of `run_mm_cycle` (mm_runner.py lines 207–243): read the
position, derive signed `inventory_usd`, and check the position-level
stop-loss and take-profit.  Returns `inl` with the finished result on an
early return (stop-loss, take-profit, or a raised exception), `inr` with
the updated result and the inventory when the cycle proceeds. -/
def positionStep (cfg : MMConfig) (env : CycleEnv) (r : CycleResult) (mid : ℚ) :
    Sum CycleResult (CycleResult × ℚ) :=
  match env.positionResult with
  | .error e => .inl { r with action := some .error, error := some e }
  | .ok none => .inr ({ r with inventory_usd := some 0 }, 0)
  | .ok (some p) =>
    let inventory0 := p.size * mid
    let inventory_usd := if p.side = Side.SHORT then -inventory0 else inventory0
    match p.pnl_percent with
    | none =>
      -- ZeroDivisionError from position.pnl_percent, caught by the
      -- cycle's outer except
      .inl { r with action := some .error, error := some "float division by zero" }
    | some pp =>
      let r1 := { r with
        position := some ⟨p.side, p.size, p.entry_price, p.unrealized_pnl, pp⟩ }
      -- 5. Check position-level stop loss
      if pp ≤ -cfg.stop_loss_pct then
        .inl (match env.closeResult with
          | .ok _ => { r1 with action := some .stop_loss_triggered
                               closeAttempted := true, closed := true }
          | .error e => { r1 with action := some .stop_loss_triggered
                                  closeAttempted := true, error := some e })
      -- Check take profit
      else if pp ≥ cfg.take_profit_pct then
        .inl (match env.closeResult with
          | .ok _ => { r1 with action := some .take_profit_triggered
                               closeAttempted := true, closed := true }
          | .error e => { r1 with action := some .take_profit_triggered
                                  closeAttempted := true, error := some e })
      else
        .inr ({ r1 with inventory_usd := some inventory_usd }, inventory_usd)

/-- Steps 6–10 of `run_mm_cycle` (mm_runner.py lines 245–321): compute
the quote, decide side suppression, and place the orders (or record a
dry run). -/
def quoteStep (cfg : MMConfig) (env : CycleEnv) (r : CycleResult)
    (volatility mid inventory_usd : ℚ) : CycleResult :=
  let q := runnerQuote cfg volatility mid inventory_usd
  let r1 := { r with
    volatility_adjusted :=
      cfg.vol_enabled && decide (volatility > cfg.vol_threshold_pct)
    skew_bps := some q.skew_bps
    quotes := some ⟨q.bid, q.ask, q.size, ((q.ask - q.bid) / mid) * 10000⟩ }
  -- 9. Check if we should skip a side due to max inventory
  let place_bid := if inventory_usd ≥ cfg.max_position_usd * (8 / 10) then false else true
  let place_ask := if inventory_usd ≤ -(cfg.max_position_usd * (8 / 10)) then false else true
  -- 10. Place orders
  if cfg.dry_run then { r1 with action := some .dry_run }
  else
    let r2 :=
      if place_bid then
        match env.bidResult with
        | .ok oid => { r1 with orders := r1.orders ++ [⟨"BID", q.bid, oid⟩]
                               bidAttempted := true }
        | .error e => { r1 with bid_error := some e, bidAttempted := true }
      else r1
    let r3 :=
      if place_ask then
        match env.askResult with
        | .ok oid => { r2 with orders := r2.orders ++ [⟨"ASK", q.ask, oid⟩]
                               askAttempted := true }
        | .error e => { r2 with ask_error := some e, askAttempted := true }
      else r2
    { r3 with action := some .quoted }

/-- Function `run_mm_cycle` (mm_runner.py lines 144–331): one market-making cycle,
returning the cycle result and the updated state. -/
def runMMCycle (cfg : MMConfig) (st : MMState) (env : CycleEnv) :
    CycleResult × MMState :=
  -- 0. Check account-level stop loss first
  let current_collateral := env.collateral
  let starting_balance :=
    if st.starting_balance = 0 then current_collateral else st.starting_balance
  let st1 : MMState := { st with starting_balance := starting_balance }
  let session_pnl := current_collateral - starting_balance
  let r0 := { initResult with session_pnl := session_pnl
                              collateral := current_collateral }
  -- Hard stop: if we have lost more than daily_loss_limit, stop everything
  if session_pnl ≤ -cfg.daily_loss_limit_usd then
    -- Cancel all orders and close position (close failure swallowed)
    ({ r0 with action := some .daily_loss_limit_hit
               cancelCalled := true, closeAttempted := true }, st1)
  else
    -- 1. Cancel ALL existing orders before doing anything
    let r1 := { r0 with cancelCalled := true }
    -- 2. Get market data
    match env.spreadResult with
    | .error e => ({ r1 with action := some .error, error := some e }, st1)
    | .ok (mid, market_spread_bps) =>
      let r2 := { r1 with mid := some mid
                          market_spread_bps := some market_spread_bps }
      -- Track prices for volatility: keep last 30
      let prices := lastN 30 (st1.last_prices ++ [mid])
      let st2 : MMState := { st1 with last_prices := prices }
      -- 3. Calculate volatility
      let volatility := calculate_volatility prices
      let r3 := { r2 with volatility_pct := some volatility }
      -- Check if volatility too high - pause
      if cfg.vol_enabled ∧ volatility > cfg.vol_pause_threshold_pct then
        ({ r3 with action := some .paused_high_volatility }, st2)
      else
        match positionStep cfg env r3 mid with
        | .inl rEarly => (rEarly, st2)
        | .inr (r4, inventory_usd) =>
          (quoteStep cfg env r4 volatility mid inventory_usd, st2)

/-- Function `run_loop` (mm_runner.py lines 388–430): run cycles against the given
stream of environments, stopping after a cycle whose action is
`daily_loss_limit_hit`.  The optional duration bound and the inter-cycle
sleep only truncate the stream further and are not modelled. -/
def runLoop (cfg : MMConfig) : MMState → List CycleEnv → List CycleResult
  | _, [] => []
  | st, env :: rest =>
    let cr := runMMCycle cfg st env
    -- Stop if daily loss limit hit
    if cr.1.action = some MMAction.daily_loss_limit_hit then [cr.1]
    else cr.1 :: runLoop cfg cr.2 rest

/-- One cycle's collaborator interactions for the class-based engine
(`MarketMaker.run_once`).  Unlike the function-based runner (whose local
`cancel_all_orders` helper swallows its own exceptions), here
`client.cancel_all` is the raw client call and can raise, so it carries
an `Except` outcome; it returns the number of cancelled orders.
`client.quote` places both legs in one call and returns both order
ids.  `run_once` calls `cancel_all` at most once per cycle (in the
max-inventory branch, or before placing quotes). -/
structure RunOnceEnv where
  spreadResult : Except String (ℚ × ℚ)           -- client.spread
  positionResult : Except String (Option Position)  -- client.position
  cancelResult : Except String ℤ                 -- client.cancel_all
  quoteResult : Except String (String × String)  -- client.quote → (bid id, ask id)
deriving DecidableEq

/-- The `result["status"]` values of `MarketMaker.run_once`. -/
inductive MMStatus where
  | max_inventory
  | dry_run
  | quoted
  | error
deriving DecidableEq

/-- The `result` dict built by `MarketMaker.run_once`, plus the
`cancelCalled` instrumentation boolean for `client.cancel_all`. -/
structure RunOnceResult where
  status : Option MMStatus
  action : Option String
  mid_price : Option ℚ
  market_spread_bps : Option ℚ
  inventory_usd : Option ℚ
  quotes : Option QuoteCalc
  orders : Option (String × String)
  error : Option String
  cancelCalled : Bool
deriving DecidableEq

/-- Method `MarketMaker.run_once` (market_maker.py lines 110–187): one quote
cycle of the class-based engine. -/
def runOnce (cfg : MMCConfig) (env : RunOnceEnv) : RunOnceResult :=
  let r0 : RunOnceResult :=
    { status := none, action := none, mid_price := none
      market_spread_bps := none, inventory_usd := none, quotes := none
      orders := none, error := none, cancelCalled := false }
  -- 1. Get market data
  match env.spreadResult with
  | .error e => { r0 with status := some .error, error := some e }
  | .ok (mid_price, market_spread_bps) =>
    let r1 := { r0 with mid_price := some mid_price
                        market_spread_bps := some market_spread_bps }
    -- 2. Get current position
    match env.positionResult with
    | .error e => { r1 with status := some .error, error := some e }
    | .ok pos =>
      let inventory_usd :=
        match pos with
        | none => 0
        | some p =>
          let inventory0 := p.size * mid_price
          if p.side = Side.SHORT then -inventory0 else inventory0
      let r2 := { r1 with inventory_usd := some inventory_usd }
      -- 3. Check risk limits
      if |inventory_usd| ≥ cfg.max_position_usd then
        let r3 := { r2 with status := some MMStatus.max_inventory
                            action := some "cancel_all" }
        if cfg.dry_run then r3
        else
          -- live cancel_all; a raise is caught by the outer except,
          -- which overwrites status with "error" (action stays)
          match env.cancelResult with
          | .ok _ => { r3 with cancelCalled := true }
          | .error e => { r3 with status := some MMStatus.error
                                  error := some e, cancelCalled := true }
      else
        -- 4. Calculate quotes
        let quotes := calculateQuotes cfg mid_price inventory_usd
        let r3 := { r2 with quotes := some quotes }
        -- 5. Place orders
        if cfg.dry_run then
          { r3 with status := some .dry_run, action := some "would_quote" }
        else
          -- Cancel existing orders; a raise lands in the outer except
          match env.cancelResult with
          | .error e => { r3 with status := some .error, error := some e
                                  cancelCalled := true }
          | .ok _ =>
            match env.quoteResult with
            | .ok ids => { r3 with orders := some ids, status := some .quoted
                                   action := some "placed_orders"
                                   cancelCalled := true }
            | .error e => { r3 with status := some .error, error := some e
                                    cancelCalled := true }

end MM

namespace MM

/-! ## Helper lemmas about rounding to the price tick -/

/-- Rounding to 5 decimal places is monotone. -/
lemma round5_mono {x y : ℚ} (h : x ≤ y) : round5 x ≤ round5 y := by
  unfold round5
  have hr : round (x * 100000) ≤ round (y * 100000) := by
    rw [round_eq, round_eq]
    exact Int.floor_le_floor (by linarith)
  have : ((round (x * 100000) : ℤ) : ℚ) ≤ ((round (y * 100000) : ℤ) : ℚ) := by
    exact_mod_cast hr
  exact div_le_div_of_nonneg_right this (by norm_num)

/-- Rounding to 5 decimal places moves a price by at most half a tick. -/
lemma round5_close (x : ℚ) : |round5 x - x| ≤ 1 / 200000 := by
  unfold round5
  have h := abs_sub_round (x * 100000)
  rw [abs_sub_comm] at h
  have hx : ((round (x * 100000) : ℤ) : ℚ) / 100000 - x
      = ((round (x * 100000) : ℤ) - x * 100000) / 100000 := by ring
  rw [hx, abs_div, show |(100000 : ℚ)| = 100000 from abs_of_pos (by norm_num)]
  calc |((round (x * 100000) : ℤ) : ℚ) - x * 100000| / 100000
      ≤ (1 / 2) / 100000 := by
        exact div_le_div_of_nonneg_right h (by norm_num)
    _ = 1 / 200000 := by norm_num

end MM

namespace MM

/-- Core spread bound: if the pre-rounding prices are at least
`mn/10000 × mid` apart, the rounded prices are ordered and keep a spread
of at least `mn` bps up to the rounding slack `1/(10·mid)`. -/
lemma spread_core (mn mid braw araw : ℚ) (hmid : 0 < mid) (hmn : 0 ≤ mn)
    (hgap : (mn / 10000) * mid ≤ araw - braw) :
    round5 braw ≤ round5 araw ∧
    mn - 1 / (10 * mid) ≤ ((round5 araw - round5 braw) / mid) * 10000 := by
  have hgap0 : (0 : ℚ) ≤ (mn / 10000) * mid :=
    mul_nonneg (div_nonneg hmn (by norm_num)) hmid.le
  have hb : braw ≤ araw := by linarith
  refine ⟨round5_mono hb, ?_⟩
  have ha := abs_le.mp (round5_close araw)
  have hbb := abs_le.mp (round5_close braw)
  have key : (mn / 10000) * mid - 1 / 100000 ≤ round5 araw - round5 braw := by
    linarith [ha.1, hbb.2]
  have hmid' : mid ≠ 0 := ne_of_gt hmid
  calc mn - 1 / (10 * mid)
      = (((mn / 10000) * mid - 1 / 100000) / mid) * 10000 := by
        field_simp
        ring
    _ ≤ ((round5 araw - round5 braw) / mid) * 10000 := by
        have := div_le_div_of_nonneg_right key hmid.le
        -- scale by the positive factor 10000
        nlinarith [this]

/-- Gap guarantee of the minimum-spread enforcement step: the enforced
pair of prices is at least `ms` apart. -/
lemma enforce_gap (bid0 ask0 ms : ℚ) :
    ms ≤ (if ask0 - bid0 < ms then
            (bid0 - (ms - (ask0 - bid0)) / 2, ask0 + (ms - (ask0 - bid0)) / 2)
          else (bid0, ask0)).2 -
         (if ask0 - bid0 < ms then
            (bid0 - (ms - (ask0 - bid0)) / 2, ask0 + (ms - (ask0 - bid0)) / 2)
          else (bid0, ask0)).1 := by
  split
  · simp only []
    linarith
  · simp only []
    linarith [not_lt.mp (by assumption : ¬ ask0 - bid0 < ms)]

/-- The pre-rounding prices of the runner quote section are at least
`min_spread_bps/10000 × mid` apart. -/
lemma runnerQuote_gap (cfg : MMConfig) (volatility mid inventory_usd : ℚ) :
    (cfg.min_spread_bps / 10000) * mid ≤
      (runnerQuote cfg volatility mid inventory_usd).ask_raw -
      (runnerQuote cfg volatility mid inventory_usd).bid_raw := by
  unfold runnerQuote
  exact enforce_gap _ _ _

/-- The pre-rounding prices of `_calculate_quotes` are at least
`min_spread_bps/10000 × mid` apart. -/
lemma calculateQuotes_gap (cfg : MMCConfig) (mid_price inventory_usd : ℚ) :
    (cfg.min_spread_bps / 10000) * mid_price ≤
      (calculateQuotes cfg mid_price inventory_usd).ask_raw -
      (calculateQuotes cfg mid_price inventory_usd).bid_raw := by
  unfold calculateQuotes
  exact enforce_gap _ _ _

end MM

namespace MM

/-- The rounded prices are the tick-rounding of the pre-rounding prices
(runner quote section). -/
lemma runnerQuote_round (cfg : MMConfig) (volatility mid inventory_usd : ℚ) :
    (runnerQuote cfg volatility mid inventory_usd).bid =
      round5 (runnerQuote cfg volatility mid inventory_usd).bid_raw ∧
    (runnerQuote cfg volatility mid inventory_usd).ask =
      round5 (runnerQuote cfg volatility mid inventory_usd).ask_raw := ⟨rfl, rfl⟩

/-- The rounded prices are the tick-rounding of the pre-rounding prices
(`_calculate_quotes`). -/
lemma calculateQuotes_round (cfg : MMCConfig) (mid_price inventory_usd : ℚ) :
    (calculateQuotes cfg mid_price inventory_usd).bid =
      round5 (calculateQuotes cfg mid_price inventory_usd).bid_raw ∧
    (calculateQuotes cfg mid_price inventory_usd).ask =
      round5 (calculateQuotes cfg mid_price inventory_usd).ask_raw := ⟨rfl, rfl⟩

/-- C1: For every quote computation — any `mid > 0`, any inventory, any
volatility input, and any valid config (spread bounds ordered,
`min_spread_bps` a nonnegative floor) — both the function-based quote
section of `run_mm_cycle` and the class-based
`MarketMaker._calculate_quotes` return `ask ≥ bid`, and the realized
spread satisfies `(ask − bid)/mid × 10000 ≥ min_spread_bps − ε` where
`ε = 1/(10·mid)` accounts for the final rounding of both prices to
5 decimal places (half a `10⁻⁵` tick each). -/
theorem quote_spread_floor (cfg : MMConfig) (ccfg : MMCConfig)
    (volatility mid inventory_usd : ℚ) (hmid : 0 < mid)
    (hmn : 0 ≤ cfg.min_spread_bps)
    (hv1 : cfg.min_spread_bps ≤ cfg.base_spread_bps)
    (hv2 : cfg.base_spread_bps ≤ cfg.max_spread_bps)
    (hmnc : 0 ≤ ccfg.min_spread_bps)
    (hvc : ccfg.min_spread_bps ≤ ccfg.base_spread_bps) :
    ((runnerQuote cfg volatility mid inventory_usd).bid ≤
        (runnerQuote cfg volatility mid inventory_usd).ask ∧
      cfg.min_spread_bps - 1 / (10 * mid) ≤
        (((runnerQuote cfg volatility mid inventory_usd).ask -
          (runnerQuote cfg volatility mid inventory_usd).bid) / mid) * 10000) ∧
    ((calculateQuotes ccfg mid inventory_usd).bid ≤
        (calculateQuotes ccfg mid inventory_usd).ask ∧
      ccfg.min_spread_bps - 1 / (10 * mid) ≤
        (((calculateQuotes ccfg mid inventory_usd).ask -
          (calculateQuotes ccfg mid inventory_usd).bid) / mid) * 10000) := by
  constructor
  · obtain ⟨hb, ha⟩ := runnerQuote_round cfg volatility mid inventory_usd
    rw [hb, ha]
    exact spread_core cfg.min_spread_bps mid _ _ hmid hmn
      (runnerQuote_gap cfg volatility mid inventory_usd)
  · obtain ⟨hb, ha⟩ := calculateQuotes_round ccfg mid inventory_usd
    rw [hb, ha]
    exact spread_core ccfg.min_spread_bps mid _ _ hmid hmnc
      (calculateQuotes_gap ccfg mid inventory_usd)

end MM

namespace MM

/-- Example runner config: the reference ORDER market-making parameters
(30 bps base, 15 bps floor, 100 bps cap, $50 per side, volatility gating
off, live mode). -/
def exCfg : MMConfig :=
  { base_spread_bps := 30, min_spread_bps := 15, max_spread_bps := 100
    order_size_usd := 50, skew_per_100_usd := 10
    vol_enabled := false, vol_threshold_pct := 3 / 2
    vol_pause_threshold_pct := 5, vol_spread_multiplier := 2
    stop_loss_pct := 5, take_profit_pct := 100
    daily_loss_limit_usd := 30, max_position_usd := 500, dry_run := false }

/-- Example class-based config, with the dataclass defaults of
market_maker.py (base 30 bps, floor 15 bps, $50 per side) in live mode. -/
def exCCfg : MMCConfig :=
  { base_spread_bps := 30, min_spread_bps := 15, order_size_usd := 50
    max_inventory_usd := 300, skew_per_100_usd := 5, max_position_usd := 500
    stop_loss_pct := 5, daily_loss_limit_usd := 50
    dry_run := false, log_quotes := true }

/-- Witness for C1 at `mid = 2000`, zero inventory. -/
theorem quote_spread_floor_witness :
    (((runnerQuote exCfg 0 2000 0).bid ≤ (runnerQuote exCfg 0 2000 0).ask ∧
      exCfg.min_spread_bps - 1 / (10 * 2000) ≤
        (((runnerQuote exCfg 0 2000 0).ask -
          (runnerQuote exCfg 0 2000 0).bid) / 2000) * 10000) ∧
    ((calculateQuotes exCCfg 2000 0).bid ≤ (calculateQuotes exCCfg 2000 0).ask ∧
      exCCfg.min_spread_bps - 1 / (10 * 2000) ≤
        (((calculateQuotes exCCfg 2000 0).ask -
          (calculateQuotes exCCfg 2000 0).bid) / 2000) * 10000)) :=
  quote_spread_floor exCfg exCCfg 0 2000 0 (by norm_num)
    (by norm_num [exCfg]) (by norm_num [exCfg]) (by norm_num [exCfg])
    (by norm_num [exCCfg]) (by norm_num [exCCfg])

/-- C8: For zero inventory the computed `skew_bps` is `0`, and the quote
is symmetric around the mid before tick rounding:
`mid − bid = ask − mid` on the pre-rounding prices — in both the
function-based quote section and the class-based `_calculate_quotes`. -/
theorem zero_inventory_symmetric (cfg : MMConfig) (ccfg : MMCConfig)
    (volatility mid : ℚ) :
    ((runnerQuote cfg volatility mid 0).skew_bps = 0 ∧
      mid - (runnerQuote cfg volatility mid 0).bid_raw =
        (runnerQuote cfg volatility mid 0).ask_raw - mid) ∧
    ((calculateQuotes ccfg mid 0).skew_bps = 0 ∧
      mid - (calculateQuotes ccfg mid 0).bid_raw =
        (calculateQuotes ccfg mid 0).ask_raw - mid) := by
  refine ⟨⟨?_, ?_⟩, ⟨?_, ?_⟩⟩
  · show ((0 : ℚ) / 100) * cfg.skew_per_100_usd = 0
    norm_num
  · unfold runnerQuote
    simp only []
    split <;> split <;> simp only [] <;> ring
  · show ((0 : ℚ) / 100) * ccfg.skew_per_100_usd = 0
    norm_num
  · unfold calculateQuotes
    simp only []
    split <;> simp only [] <;> ring

/-- C9: With the volatility adjustment disabled and identical spread,
skew and size parameters satisfying `min ≤ base ≤ max`, the class-based
`_calculate_quotes` and the function-based quote section of
`run_mm_cycle` compute the same quote (identical bid, ask and size —
indeed identical `QuoteCalc` records). -/
theorem quote_implementations_agree (cfg : MMConfig) (ccfg : MMCConfig)
    (volatility mid inventory_usd : ℚ)
    (hvol : cfg.vol_enabled = false)
    (hbase : cfg.base_spread_bps = ccfg.base_spread_bps)
    (hmin : cfg.min_spread_bps = ccfg.min_spread_bps)
    (hskew : cfg.skew_per_100_usd = ccfg.skew_per_100_usd)
    (hsize : cfg.order_size_usd = ccfg.order_size_usd)
    (hv1 : cfg.min_spread_bps ≤ cfg.base_spread_bps)
    (hv2 : cfg.base_spread_bps ≤ cfg.max_spread_bps) :
    runnerQuote cfg volatility mid inventory_usd =
      calculateQuotes ccfg mid inventory_usd := by
  unfold runnerQuote calculateQuotes
  simp only [hvol, Bool.false_eq_true, false_and, if_false]
  rw [min_eq_left hv2, max_eq_left hv1, hbase, hmin, hskew, hsize]

/-- Witness for C9 on the example configs (volatility gating off), with
the class config's parameters copied into the runner config. -/
theorem quote_implementations_agree_witness :
    runnerQuote { exCfg with skew_per_100_usd := 5 } 0 (1 / 2) 440 =
      calculateQuotes exCCfg (1 / 2) 440 :=
  quote_implementations_agree _ exCCfg 0 (1 / 2) 440 rfl rfl rfl rfl rfl
    (by norm_num [exCfg]) (by norm_num [exCfg])

/-- C10: `Position.pnl_percent` is guarded only against
`entry_price = 0` (returning 0 there): with `entry_price ≠ 0` and
`size ≠ 0` it returns `unrealized_pnl / (size × entry_price) × 100`, but
with `size = 0` and `entry_price ≠ 0` the division by
`size × entry_price = 0` is unguarded (a `ZeroDivisionError`, modelled
as `none`): the accessor is total only under the precondition
`size ≠ 0 ∨ entry_price = 0`. -/
theorem pnl_percent_guard (p : Position) :
    (p.entry_price = 0 → p.pnl_percent = some 0) ∧
    (p.entry_price ≠ 0 → p.size ≠ 0 →
      p.pnl_percent = some ((p.unrealized_pnl / (p.size * p.entry_price)) * 100)) ∧
    (p.entry_price ≠ 0 → p.size = 0 → p.pnl_percent = none) := by
  unfold Position.pnl_percent
  refine ⟨fun h => by simp [h], fun h hs => ?_, fun h hs => ?_⟩
  · simp [h, hs, mul_eq_zero]
  · simp [h, hs, mul_eq_zero]

/-- Witness for C10: a position with `size = 0` and nonzero entry price
makes the accessor raise (`none`). -/
theorem pnl_percent_guard_witness :
    Position.pnl_percent ⟨Side.LONG, 0, 100, 100, 5, 1⟩ = none :=
  (pnl_percent_guard ⟨Side.LONG, 0, 100, 100, 5, 1⟩).2.2 (by norm_num) rfl

end MM

namespace MM

/-- The position/stop-loss step never touches the `session_pnl`,
`volatility_pct` or `cancelCalled` fields of the result it threads. -/
lemma positionStep_preserves (cfg : MMConfig) (env : CycleEnv)
    (r : CycleResult) (mid : ℚ) :
    Sum.elim
      (fun r' => r'.session_pnl = r.session_pnl ∧
        r'.volatility_pct = r.volatility_pct ∧
        r'.cancelCalled = r.cancelCalled)
      (fun x => x.1.session_pnl = r.session_pnl ∧
        x.1.volatility_pct = r.volatility_pct ∧
        x.1.cancelCalled = r.cancelCalled)
      (positionStep cfg env r mid) := by
  unfold positionStep
  repeat' split
  all_goals simp

/-- The quote/placement step never touches the `session_pnl`,
`volatility_pct` or `inventory_usd` fields of the result it threads. -/
lemma quoteStep_preserves (cfg : MMConfig) (env : CycleEnv) (r : CycleResult)
    (volatility mid inventory_usd : ℚ) :
    (quoteStep cfg env r volatility mid inventory_usd).session_pnl = r.session_pnl ∧
    (quoteStep cfg env r volatility mid inventory_usd).volatility_pct = r.volatility_pct ∧
    (quoteStep cfg env r volatility mid inventory_usd).inventory_usd = r.inventory_usd := by
  unfold quoteStep
  repeat' split
  all_goals simp

end MM

namespace MM

/-- Equation form of `positionStep_preserves` for the early-return branch. -/
lemma positionStep_inl_session {cfg : MMConfig} {env : CycleEnv}
    {r : CycleResult} {mid : ℚ} {r' : CycleResult}
    (h : positionStep cfg env r mid = Sum.inl r') :
    r'.session_pnl = r.session_pnl := by
  have hp := positionStep_preserves cfg env r mid
  rw [h] at hp
  exact hp.1

/-- Equation form of `positionStep_preserves` for the proceed branch. -/
lemma positionStep_inr_session {cfg : MMConfig} {env : CycleEnv}
    {r : CycleResult} {mid : ℚ} {r4 : CycleResult} {inv : ℚ}
    (h : positionStep cfg env r mid = Sum.inr (r4, inv)) :
    r4.session_pnl = r.session_pnl := by
  have hp := positionStep_preserves cfg env r mid
  rw [h] at hp
  exact hp.1

/-- Any cycle whose reported `session_pnl` is at or below the negated
daily loss limit takes the hard-stop branch: its action is
`daily_loss_limit_hit`, it cancels all resting orders and attempts to
close the position (whatever the close outcome). -/
lemma runMMCycle_daily_char (cfg : MMConfig) (st : MMState) (env : CycleEnv)
    (hl : (runMMCycle cfg st env).1.session_pnl ≤ -cfg.daily_loss_limit_usd) :
    (runMMCycle cfg st env).1.action = some MMAction.daily_loss_limit_hit ∧
    (runMMCycle cfg st env).1.cancelCalled = true ∧
    (runMMCycle cfg st env).1.closeAttempted = true := by
  unfold runMMCycle at hl ⊢
  simp only [] at hl ⊢
  by_cases hc : env.collateral -
      (if st.starting_balance = 0 then env.collateral else st.starting_balance) ≤
      -cfg.daily_loss_limit_usd
  · rw [if_pos hc]
    exact ⟨rfl, rfl, rfl⟩
  · exfalso
    rw [if_neg hc] at hl
    rcases hsp : env.spreadResult with e | ⟨mid, ms⟩
    · rw [hsp] at hl
      exact hc hl
    · rw [hsp] at hl
      simp only [] at hl
      by_cases hv : cfg.vol_enabled = true ∧
          calculate_volatility (lastN 30 (st.last_prices ++ [mid])) >
            cfg.vol_pause_threshold_pct
      · rw [if_pos hv] at hl
        exact hc hl
      · rw [if_neg hv] at hl
        split at hl
        · rename_i rE hps
          dsimp only at hl
          rw [positionStep_inl_session hps] at hl
          exact hc hl
        · rename_i r4 inv hps
          dsimp only at hl
          rw [(quoteStep_preserves cfg env r4
            (calculate_volatility (lastN 30 (st.last_prices ++ [mid]))) mid inv).1] at hl
          rw [positionStep_inr_session hps] at hl
          exact hc hl

end MM

namespace MM

/-- Example state: one stored price, session started at $1000 collateral. -/
def exSt : MMState := ⟨[100], 1000⟩

/-- Example environment for a losing cycle: collateral has dropped to
$965 (session PnL −35 against a $30 limit) and the best-effort position
close fails. -/
def exEnvLoss : CycleEnv :=
  { collateral := 965, cancelOk := true, spreadResult := .ok (110, 10)
    positionResult := .ok none, closeResult := .error "close failed"
    bidResult := .ok "b1", askResult := .ok "a1" }

/-- C2: In every cycle whose session PnL (current collateral minus
starting collateral) is at or below `−daily_loss_limit_usd`, the cycle's
action is `daily_loss_limit_hit`, all resting orders are cancelled and a
best-effort position close is attempted (the environment is arbitrary,
so a failing close is swallowed and does not change the outcome), and
the run loop stops after that cycle: the cycle's result is the last one
the loop ever produces, whatever environments were still pending. -/
theorem daily_loss_breaker_stops_loop (cfg : MMConfig) (st : MMState)
    (envs : List CycleEnv) (i : Nat) (r : CycleResult)
    (hr : (runLoop cfg st envs).get? i = some r)
    (hl : r.session_pnl ≤ -cfg.daily_loss_limit_usd) :
    r.action = some MMAction.daily_loss_limit_hit ∧
    r.cancelCalled = true ∧
    r.closeAttempted = true ∧
    (runLoop cfg st envs).length = i + 1 := by
  induction envs generalizing st i with
  | nil => simp [runLoop] at hr
  | cons env rest ih =>
    by_cases hd : (runMMCycle cfg st env).1.action =
        some MMAction.daily_loss_limit_hit
    · simp only [runLoop, if_pos hd] at hr ⊢
      cases i with
      | zero =>
        simp only [List.get?] at hr
        obtain rfl : (runMMCycle cfg st env).1 = r := by
          exact Option.some.inj hr
        obtain ⟨h1, h2, h3⟩ := runMMCycle_daily_char cfg st env hl
        exact ⟨h1, h2, h3, rfl⟩
      | succ j =>
        simp only [List.get?] at hr
        exact absurd hr (by simp)
    · simp only [runLoop, if_neg hd] at hr ⊢
      cases i with
      | zero =>
        simp only [List.get?] at hr
        obtain rfl : (runMMCycle cfg st env).1 = r := by
          exact Option.some.inj hr
        exact absurd (runMMCycle_daily_char cfg st env hl).1 hd
      | succ j =>
        simp only [List.get?] at hr
        obtain ⟨h1, h2, h3, h4⟩ := ih (runMMCycle cfg st env).2 j hr
        exact ⟨h1, h2, h3, by simp [List.length_cons, h4]⟩

/-- Witness for C2: starting collateral 1000, current 965, limit 30 —
the cycle hits the breaker and the loop stops at it, producing exactly
one result despite two pending environments. -/
theorem daily_loss_breaker_stops_loop_witness :
    (runLoop exCfg exSt [exEnvLoss, exEnvLoss]).length = 0 + 1 := by
  have hact : (runMMCycle exCfg exSt exEnvLoss).1.action =
      some MMAction.daily_loss_limit_hit := by
    simp only [runMMCycle, exCfg, exSt, exEnvLoss, initResult]
    norm_num
  have hses : (runMMCycle exCfg exSt exEnvLoss).1.session_pnl ≤
      -exCfg.daily_loss_limit_usd := by
    simp only [runMMCycle, exCfg, exSt, exEnvLoss, initResult]
    norm_num
  have hlist : runLoop exCfg exSt [exEnvLoss, exEnvLoss] =
      [(runMMCycle exCfg exSt exEnvLoss).1] := by
    simp only [runLoop, if_pos hact]
  have hr : (runLoop exCfg exSt [exEnvLoss, exEnvLoss]).get? 0 =
      some (runMMCycle exCfg exSt exEnvLoss).1 := by
    rw [hlist]
    rfl
  exact (daily_loss_breaker_stops_loop exCfg exSt [exEnvLoss, exEnvLoss]
    0 (runMMCycle exCfg exSt exEnvLoss).1 hr hses).2.2.2

end MM

namespace MM

/-- Folding `max` over a list yields an element of the list (or the seed)
that bounds the seed and every element. -/
lemma foldl_max_spec (a : ℚ) (l : List ℚ) :
    l.foldl max a ∈ a :: l ∧ a ≤ l.foldl max a ∧ ∀ x ∈ l, x ≤ l.foldl max a := by
  induction l generalizing a with
  | nil => simp
  | cons b t ih =>
    obtain ⟨hmem, hle, hbound⟩ := ih (max a b)
    simp only [List.foldl]
    refine ⟨?_, le_trans (le_max_left a b) hle, ?_⟩
    · rcases List.mem_cons.mp hmem with hm | hm
      · rw [hm]
        rcases max_choice a b with hab | hab <;> rw [hab] <;> simp
      · simp [hm]
    · intro x hx
      rcases List.mem_cons.mp hx with hx | hx
      · rw [hx]
        exact le_trans (le_max_right a b) hle
      · exact hbound x hx

/-- Folding `min` over a list yields an element of the list (or the seed)
that is below the seed and every element. -/
lemma foldl_min_spec (a : ℚ) (l : List ℚ) :
    l.foldl min a ∈ a :: l ∧ l.foldl min a ≤ a ∧ ∀ x ∈ l, l.foldl min a ≤ x := by
  induction l generalizing a with
  | nil => simp
  | cons b t ih =>
    obtain ⟨hmem, hle, hbound⟩ := ih (min a b)
    simp only [List.foldl]
    refine ⟨?_, le_trans hle (min_le_left a b), ?_⟩
    · rcases List.mem_cons.mp hmem with hm | hm
      · rw [hm]
        rcases min_choice a b with hab | hab <;> rw [hab] <;> simp
      · simp [hm]
    · intro x hx
      rcases List.mem_cons.mp hx with hx | hx
      · rw [hx]
        exact le_trans hle (min_le_right a b)
      · exact hbound x hx

/-- Helper equations: `positionStep` and the early/proceed branches leave
`volatility_pct` unchanged. -/
lemma positionStep_inl_vol {cfg : MMConfig} {env : CycleEnv}
    {r : CycleResult} {mid : ℚ} {r' : CycleResult}
    (h : positionStep cfg env r mid = Sum.inl r') :
    r'.volatility_pct = r.volatility_pct := by
  have hp := positionStep_preserves cfg env r mid
  rw [h] at hp
  exact hp.2.1

/-- Equation form of `positionStep_preserves` (proceed branch) for
`volatility_pct`. -/
lemma positionStep_inr_vol {cfg : MMConfig} {env : CycleEnv}
    {r : CycleResult} {mid : ℚ} {r4 : CycleResult} {inv : ℚ}
    (h : positionStep cfg env r mid = Sum.inr (r4, inv)) :
    r4.volatility_pct = r.volatility_pct := by
  have hp := positionStep_preserves cfg env r mid
  rw [h] at hp
  exact hp.2.1

/-- C5: The volatility metric of the engine: over any stored window it
equals `(max − min) / most_recent_price × 100` (with the max and the min
exhibited as bounds attained in the window), it is `0` whenever fewer
than 2 samples are stored, the cycle evaluates it on the stored window
of the last 30 mid prices (the appended window trimmed to 30), and on
the price history `[100, 101, 99, 102, 98]` it equals
`(102 − 98)/98 × 100 ≈ 4.08`. -/
theorem volatility_spec :
    (∀ prices : List ℚ, prices.length < 2 → calculate_volatility prices = 0) ∧
    (∀ prices : List ℚ, 2 ≤ prices.length →
      ∃ M m : ℚ, M ∈ prices ∧ m ∈ prices ∧
        (∀ x ∈ prices, x ≤ M) ∧ (∀ x ∈ prices, m ≤ x) ∧
        calculate_volatility prices = ((M - m) / prices.getLastD 0) * 100) ∧
    (∀ (cfg : MMConfig) (st : MMState) (env : CycleEnv) (mid ms : ℚ),
      env.spreadResult = Except.ok (mid, ms) →
      ¬(env.collateral - (if st.starting_balance = 0 then env.collateral
          else st.starting_balance) ≤ -cfg.daily_loss_limit_usd) →
      (runMMCycle cfg st env).1.volatility_pct =
        some (calculate_volatility (lastN 30 (st.last_prices ++ [mid])))) ∧
    (calculate_volatility [100, 101, 99, 102, 98] = ((102 - 98) / 98) * 100 ∧
      |calculate_volatility [100, 101, 99, 102, 98] - 408 / 100| < 1 / 100) := by
  refine ⟨?_, ?_, ?_, ?_⟩
  · intro prices h
    unfold calculate_volatility
    rw [if_pos h]
  · intro prices h
    match prices with
    | x :: xs =>
      obtain ⟨hMmem, _, hMbound⟩ := foldl_max_spec x xs
      obtain ⟨hmmem, _, hmbound⟩ := foldl_min_spec x xs
      refine ⟨listMax (x :: xs), listMin (x :: xs), hMmem, hmmem, ?_, ?_, ?_⟩
      · intro y hy
        rcases List.mem_cons.mp hy with hy | hy
        · rw [hy]
          exact (foldl_max_spec x xs).2.1
        · exact hMbound y hy
      · intro y hy
        rcases List.mem_cons.mp hy with hy | hy
        · rw [hy]
          exact (foldl_min_spec x xs).2.1
        · exact hmbound y hy
      · unfold calculate_volatility
        rw [if_neg (by omega : ¬ (x :: xs).length < 2)]
  · intro cfg st env mid ms hsp hc
    unfold runMMCycle
    simp only []
    rw [if_neg hc, hsp]
    simp only []
    by_cases hv : cfg.vol_enabled = true ∧
        calculate_volatility (lastN 30 (st.last_prices ++ [mid])) >
          cfg.vol_pause_threshold_pct
    · rw [if_pos hv]
    · rw [if_neg hv]
      split
      · rename_i rE hps
        dsimp only
        rw [positionStep_inl_vol hps]
      · rename_i r4 inv hps
        dsimp only
        rw [(quoteStep_preserves cfg env r4
          (calculate_volatility (lastN 30 (st.last_prices ++ [mid]))) mid inv).2.1]
        rw [positionStep_inr_vol hps]
  · constructor
    · norm_num [calculate_volatility, listMax, listMin, List.foldl,
        List.getLastD, max_def, min_def]
    · norm_num [calculate_volatility, listMax, listMin, List.foldl,
        List.getLastD, max_def, min_def, abs_lt]

/-- Witness for C5: a single stored sample gives volatility 0. -/
theorem volatility_spec_witness : calculate_volatility [42] = 0 :=
  volatility_spec.1 [42] (by norm_num)

end MM

namespace MM

/-- Example position: long 1 unit from entry 100 with −$10 unrealized
PnL, i.e. `pnl_percent = −10`. -/
def exPosLoss : Position := ⟨Side.LONG, 1, 100, 90, -10, 1⟩

/-- Example environment in which the stored window becomes `[100, 110]`
(volatility `100/11 ≈ 9.09 %`) while the open position is deep in loss. -/
def exEnvVol : CycleEnv :=
  { collateral := 1000, cancelOk := true, spreadResult := .ok (110, 10)
    positionResult := .ok (some exPosLoss), closeResult := .ok ()
    bidResult := .ok "b1", askResult := .ok "a1" }

/-- Runner config with volatility gating enabled (pause threshold 5 %,
stop-loss 5 %). -/
def exCfgVol : MMConfig := { exCfg with vol_enabled := true }

/-- C3 counterexample: a concrete cycle in which both the stop-loss
condition (`pnl_percent = −10 ≤ −stop_loss_pct`) and the volatility-pause
condition (gating enabled, `volatility = 100/11 > pause threshold 5`)
hold, yet `run_mm_cycle` returns `paused_high_volatility`, not
`stop_loss_triggered`: the code checks the volatility pause before it
ever reads the position. -/
theorem risk_precedence_counterexample :
    Position.pnl_percent exPosLoss = some (-10) ∧
    (-10 : ℚ) ≤ -exCfgVol.stop_loss_pct ∧
    exCfgVol.vol_enabled = true ∧
    (runMMCycle exCfgVol exSt exEnvVol).1.volatility_pct = some (100 / 11) ∧
    (100 / 11 : ℚ) > exCfgVol.vol_pause_threshold_pct ∧
    (runMMCycle exCfgVol exSt exEnvVol).1.action =
      some MMAction.paused_high_volatility ∧
    (runMMCycle exCfgVol exSt exEnvVol).1.action ≠
      some MMAction.stop_loss_triggered := by
  refine ⟨by norm_num [Position.pnl_percent, exPosLoss],
    by norm_num [exCfgVol, exCfg], rfl, ?_, by norm_num [exCfgVol, exCfg], ?_, ?_⟩
  · simp only [runMMCycle, exCfgVol, exCfg, exSt, exEnvVol, initResult, lastN,
      calculate_volatility, listMax, listMin, List.foldl, List.getLastD,
      max_def, min_def]
    norm_num
  · simp only [runMMCycle, exCfgVol, exCfg, exSt, exEnvVol, initResult, lastN,
      calculate_volatility, listMax, listMin, List.foldl, List.getLastD,
      max_def, min_def]
    norm_num
  · simp only [runMMCycle, exCfgVol, exCfg, exSt, exEnvVol, initResult, lastN,
      calculate_volatility, listMax, listMin, List.foldl, List.getLastD,
      max_def, min_def]
    norm_num
    decide

/-- C3 amended: `run_mm_cycle` evaluates the risk conditions in the
order daily-loss breaker, then volatility pause, then position
stop-loss, then take-profit (the function-based engine has no
`max_inventory` outcome, only side suppression); in particular, in every
cycle in which both the stop-loss condition and the volatility-pause
condition hold, the outcome is `paused_high_volatility`, not
`stop_loss_triggered`. -/
theorem volatility_pause_precedes_stop_loss (cfg : MMConfig) (st : MMState)
    (env : CycleEnv) (mid ms : ℚ) (p : Position) (pp : ℚ)
    (hd : ¬(env.collateral - (if st.starting_balance = 0 then env.collateral
        else st.starting_balance) ≤ -cfg.daily_loss_limit_usd))
    (hsp : env.spreadResult = Except.ok (mid, ms))
    (hvol : cfg.vol_enabled = true)
    (hpause : calculate_volatility (lastN 30 (st.last_prices ++ [mid])) >
      cfg.vol_pause_threshold_pct)
    (hpos : env.positionResult = Except.ok (some p))
    (hpp : p.pnl_percent = some pp)
    (hsl : pp ≤ -cfg.stop_loss_pct) :
    (runMMCycle cfg st env).1.action = some MMAction.paused_high_volatility ∧
    (runMMCycle cfg st env).1.action ≠ some MMAction.stop_loss_triggered := by
  have ha : (runMMCycle cfg st env).1.action =
      some MMAction.paused_high_volatility := by
    unfold runMMCycle
    simp only []
    rw [if_neg hd, hsp]
    simp only []
    rw [if_pos ⟨hvol, hpause⟩]
  exact ⟨ha, by rw [ha]; simp⟩

/-- Witness for the amended C3 on the concrete scenario of the
counterexample. -/
theorem volatility_pause_precedes_stop_loss_witness :
    (runMMCycle exCfgVol exSt exEnvVol).1.action =
      some MMAction.paused_high_volatility ∧
    (runMMCycle exCfgVol exSt exEnvVol).1.action ≠
      some MMAction.stop_loss_triggered :=
  volatility_pause_precedes_stop_loss exCfgVol exSt exEnvVol 110 10
    exPosLoss (-10)
    (by norm_num [exSt, exEnvVol, exCfgVol, exCfg])
    rfl rfl
    (by norm_num [exSt, exEnvVol, lastN, calculate_volatility, listMax,
      listMin, List.foldl, List.getLastD, max_def, min_def, exCfgVol, exCfg])
    rfl
    (by norm_num [Position.pnl_percent, exPosLoss])
    (by norm_num [exCfgVol, exCfg])

end MM

namespace MM

/-- Constructor disequality of the two sides, as a rewrite rule for
evaluating concrete cycles. -/
lemma side_long_ne_short : (Side.LONG = Side.SHORT) = False := by
  simp

/-- Example position: long 5 units at mid 100, i.e. inventory exactly
$500 — at the `max_position_usd` cap of the example configs. -/
def exPosFull : Position := ⟨Side.LONG, 5, 100, 100, 0, 1⟩

/-- Example environment carrying that full-cap position, with both order
placements succeeding. -/
def exEnvFull : CycleEnv :=
  { collateral := 1000, cancelOk := true, spreadResult := .ok (100, 10)
    positionResult := .ok (some exPosFull), closeResult := .ok ()
    bidResult := .ok "b1", askResult := .ok "a1" }

/-- C4 counterexample: a concrete `run_mm_cycle` cycle with
`|inventory_usd| = 500 ≥ max_position_usd = 500` whose outcome is
`quoted` — not a `max_inventory` halt — and which still places the ask
order: the function-based engine has no max-inventory outcome, only the
0.8-factor side suppression. -/
theorem max_inventory_counterexample :
    (runMMCycle exCfg exSt exEnvFull).1.inventory_usd = some 500 ∧
    exCfg.max_position_usd = 500 ∧
    |(500 : ℚ)| ≥ exCfg.max_position_usd ∧
    (runMMCycle exCfg exSt exEnvFull).1.action = some MMAction.quoted ∧
    (runMMCycle exCfg exSt exEnvFull).1.askAttempted = true ∧
    (runMMCycle exCfg exSt exEnvFull).1.orders.map OrderRec.side = ["ASK"] := by
  refine ⟨?_, by norm_num [exCfg], by norm_num [exCfg], ?_, ?_, ?_⟩ <;>
    simp only [runMMCycle, positionStep, quoteStep, Position.pnl_percent,
      exCfg, exSt, exEnvFull, exPosFull, initResult, lastN,
      calculate_volatility, listMax, listMin, List.foldl, List.getLastD,
      max_def, min_def, side_long_ne_short, if_false] <;>
    norm_num [side_long_ne_short]

/-- C4 amended: the `max_inventory` outcome belongs to the class-based
`MarketMaker.run_once`: whenever `|inventory_usd| ≥ max_position_usd`
there, the action is `cancel_all`, the quote step is not reached and no
orders are placed; the cancel-all call itself is issued only in live
(non-dry-run) mode, and the status is `max_inventory` in dry-run mode or
when the live cancel succeeds — if the live `client.cancel_all` raises,
the outer exception handler overwrites the status with `error` (the
action remains `cancel_all`).  (The function-based `run_mm_cycle` has no
such outcome — see the counterexample.) -/
theorem run_once_max_inventory (cfg : MMCConfig) (env : RunOnceEnv)
    (mid ms : ℚ) (pos : Option Position) (inv : ℚ)
    (hsp : env.spreadResult = Except.ok (mid, ms))
    (hpos : env.positionResult = Except.ok pos)
    (hdef : inv = (match pos with
      | none => (0 : ℚ)
      | some p => if p.side = Side.SHORT then -(p.size * mid)
          else p.size * mid))
    (hinv : cfg.max_position_usd ≤ |inv|) :
    (runOnce cfg env).action = some "cancel_all" ∧
    (runOnce cfg env).quotes = none ∧
    (runOnce cfg env).orders = none ∧
    (runOnce cfg env).cancelCalled = !cfg.dry_run ∧
    (cfg.dry_run = true →
      (runOnce cfg env).status = some MMStatus.max_inventory) ∧
    (∀ n : ℤ, env.cancelResult = Except.ok n →
      (runOnce cfg env).status = some MMStatus.max_inventory) ∧
    (∀ e, cfg.dry_run = false → env.cancelResult = Except.error e →
      (runOnce cfg env).status = some MMStatus.error ∧
      (runOnce cfg env).error = some e) := by
  subst hdef
  unfold runOnce
  simp only []
  rw [hsp, hpos]
  simp only []
  rcases pos with _ | p <;>
    simp only [] at hinv ⊢ <;>
    rw [if_pos hinv] <;>
    rcases hdry : cfg.dry_run with _ | _ <;>
    simp only [hdry, Bool.false_eq_true, Bool.not_false, Bool.not_true,
      if_false, if_true]
  · rcases hcr : env.cancelResult with e | n <;>
      simp only [hcr] <;>
      refine ⟨by trivial, by trivial, by trivial, by trivial, ?_, ?_, ?_⟩
    · intro h
      simp [hdry] at h
    · intro n hn
      simp at hn
    · intro e' hd' he'
      simp only [Except.error.injEq] at he'
      subst he'
      exact ⟨by trivial, by trivial⟩
    · intro h
      simp [hdry] at h
    · intro n' hn
      trivial
    · intro e' hd' he'
      simp at he'
  · refine ⟨by trivial, by trivial, by trivial, by trivial,
      fun _ => by trivial, fun n hn => by trivial, ?_⟩
    intro e hd' he'
    simp [hdry] at hd'
  · rcases hcr : env.cancelResult with e | n <;>
      simp only [hcr] <;>
      refine ⟨by trivial, by trivial, by trivial, by trivial, ?_, ?_, ?_⟩
    · intro h
      simp [hdry] at h
    · intro n hn
      simp at hn
    · intro e' hd' he'
      simp only [Except.error.injEq] at he'
      subst he'
      exact ⟨by trivial, by trivial⟩
    · intro h
      simp [hdry] at h
    · intro n' hn
      trivial
    · intro e' hd' he'
      simp at he'
  · refine ⟨by trivial, by trivial, by trivial, by trivial,
      fun _ => by trivial, fun n hn => by trivial, ?_⟩
    intro e hd' he'
    simp [hdry] at hd'

/-- Witness for the amended C4: the full-cap position in live mode with
a succeeding cancel-all makes `run_once` halt with `max_inventory`, no
quotes, no orders, and the cancel issued. -/
theorem run_once_max_inventory_witness :
    (runOnce exCCfg ⟨.ok (100, 10), .ok (some exPosFull), .ok 1,
        .ok ("b1", "a1")⟩).status = some MMStatus.max_inventory ∧
    (runOnce exCCfg ⟨.ok (100, 10), .ok (some exPosFull), .ok 1,
        .ok ("b1", "a1")⟩).action = some "cancel_all" ∧
    (runOnce exCCfg ⟨.ok (100, 10), .ok (some exPosFull), .ok 1,
        .ok ("b1", "a1")⟩).quotes = none ∧
    (runOnce exCCfg ⟨.ok (100, 10), .ok (some exPosFull), .ok 1,
        .ok ("b1", "a1")⟩).orders = none ∧
    (runOnce exCCfg ⟨.ok (100, 10), .ok (some exPosFull), .ok 1,
        .ok ("b1", "a1")⟩).cancelCalled = !exCCfg.dry_run := by
  have h := run_once_max_inventory exCCfg
    ⟨.ok (100, 10), .ok (some exPosFull), .ok 1, .ok ("b1", "a1")⟩
    100 10 (some exPosFull) 500 rfl rfl
    (by norm_num [exPosFull]; decide)
    (by norm_num [exCCfg])
  exact ⟨h.2.2.2.2.2.1 1 rfl, h.1, h.2.1, h.2.2.1, h.2.2.2.1⟩

end MM

namespace MM

/-- Reduction of a full cycle that passes every breaker: with no daily
hit, good market data, no volatility pause, an open position and a PnL
strictly between the stop-loss and take-profit levels, `run_mm_cycle` is
exactly the quote/placement step applied to the threaded result. -/
lemma runMMCycle_quote_path (cfg : MMConfig) (st : MMState) (env : CycleEnv)
    (mid ms : ℚ) (p : Position) (pp : ℚ)
    (hd : ¬(env.collateral - (if st.starting_balance = 0 then env.collateral
        else st.starting_balance) ≤ -cfg.daily_loss_limit_usd))
    (hsp : env.spreadResult = Except.ok (mid, ms))
    (hv : ¬(cfg.vol_enabled = true ∧
      calculate_volatility (lastN 30 (st.last_prices ++ [mid])) >
        cfg.vol_pause_threshold_pct))
    (hpos : env.positionResult = Except.ok (some p))
    (hpp : p.pnl_percent = some pp)
    (hsl : ¬(pp ≤ -cfg.stop_loss_pct))
    (htp : ¬(pp ≥ cfg.take_profit_pct)) :
    (runMMCycle cfg st env).1 = quoteStep cfg env
      { initResult with
          session_pnl := env.collateral -
            (if st.starting_balance = 0 then env.collateral
              else st.starting_balance)
          collateral := env.collateral
          cancelCalled := true
          mid := some mid
          market_spread_bps := some ms
          volatility_pct :=
            some (calculate_volatility (lastN 30 (st.last_prices ++ [mid])))
          position := some ⟨p.side, p.size, p.entry_price, p.unrealized_pnl, pp⟩
          inventory_usd := some (if p.side = Side.SHORT then -(p.size * mid)
            else p.size * mid) }
      (calculate_volatility (lastN 30 (st.last_prices ++ [mid]))) mid
      (if p.side = Side.SHORT then -(p.size * mid) else p.size * mid) := by
  unfold runMMCycle positionStep
  simp only []
  rw [if_neg hd, hsp]
  simp only []
  rw [if_neg hv, hpos]
  simp only []
  rw [hpp]
  simp only []
  rw [if_neg hsl, if_neg htp]

/-- Side suppression and per-leg behaviour of the quote/placement step in
live mode, starting from a result with no recorded attempts or orders. -/
lemma quoteStep_suppression (cfg : MMConfig) (env : CycleEnv)
    (r : CycleResult) (vol mid inv : ℚ)
    (hdry : cfg.dry_run = false) (hmax : 0 < cfg.max_position_usd)
    (hb : r.bidAttempted = false) (ha : r.askAttempted = false)
    (ho : r.orders = []) :
    ((8 / 10) * cfg.max_position_usd ≤ inv →
      (quoteStep cfg env r vol mid inv).bidAttempted = false ∧
      (quoteStep cfg env r vol mid inv).askAttempted = true ∧
      ∀ o ∈ (quoteStep cfg env r vol mid inv).orders, o.side = "ASK") ∧
    (inv ≤ -((8 / 10) * cfg.max_position_usd) →
      (quoteStep cfg env r vol mid inv).askAttempted = false ∧
      (quoteStep cfg env r vol mid inv).bidAttempted = true ∧
      ∀ o ∈ (quoteStep cfg env r vol mid inv).orders, o.side = "BID") ∧
    (quoteStep cfg env r vol mid inv).action = some MMAction.quoted := by
  unfold quoteStep
  simp only [hdry, Bool.false_eq_true, if_false]
  refine ⟨fun hbig => ?_, fun hsmall => ?_, by trivial⟩
  · have h1 : inv ≥ cfg.max_position_usd * (8 / 10) := by linarith
    have h2 : ¬(inv ≤ -(cfg.max_position_usd * (8 / 10))) := by
      intro hle
      linarith
    rw [if_pos h1, if_neg h2]
    simp only [Bool.false_eq_true, if_false, if_true]
    rcases haR : env.askResult with e | oid
    · simp [ho, hb]
    · simp [ho, hb]
  · have h1 : ¬(inv ≥ cfg.max_position_usd * (8 / 10)) := by
      intro hge
      linarith
    have h2 : inv ≤ -(cfg.max_position_usd * (8 / 10)) := by linarith
    rw [if_neg h1, if_pos h2]
    simp only [Bool.false_eq_true, if_false, if_true]
    rcases hbR : env.bidResult with e | oid
    · simp [ho, ha]
    · simp [ho, ha]

end MM

namespace MM

/-- C6: Side suppression, applied only when the cycle proceeds to quote
(no breaker fired, live mode): with inventory at or above
`0.8 × max_position_usd` the bid leg is not attempted while the ask leg
is (every order placed that cycle is an ASK), and symmetrically at or
below `−0.8 × max_position_usd` the ask leg is not attempted while the
bid leg is; the cycle's outcome is `quoted` and it reports exactly that
inventory. -/
theorem side_suppression (cfg : MMConfig) (st : MMState) (env : CycleEnv)
    (mid ms : ℚ) (p : Position) (pp inv : ℚ)
    (hd : ¬(env.collateral - (if st.starting_balance = 0 then env.collateral
        else st.starting_balance) ≤ -cfg.daily_loss_limit_usd))
    (hsp : env.spreadResult = Except.ok (mid, ms))
    (hv : ¬(cfg.vol_enabled = true ∧
      calculate_volatility (lastN 30 (st.last_prices ++ [mid])) >
        cfg.vol_pause_threshold_pct))
    (hpos : env.positionResult = Except.ok (some p))
    (hpp : p.pnl_percent = some pp)
    (hsl : ¬(pp ≤ -cfg.stop_loss_pct))
    (htp : ¬(pp ≥ cfg.take_profit_pct))
    (hinv : inv = (if p.side = Side.SHORT then -(p.size * mid)
      else p.size * mid))
    (hdry : cfg.dry_run = false)
    (hmax : 0 < cfg.max_position_usd) :
    ((8 / 10) * cfg.max_position_usd ≤ inv →
      (runMMCycle cfg st env).1.bidAttempted = false ∧
      (runMMCycle cfg st env).1.askAttempted = true ∧
      ∀ o ∈ (runMMCycle cfg st env).1.orders, o.side = "ASK") ∧
    (inv ≤ -((8 / 10) * cfg.max_position_usd) →
      (runMMCycle cfg st env).1.askAttempted = false ∧
      (runMMCycle cfg st env).1.bidAttempted = true ∧
      ∀ o ∈ (runMMCycle cfg st env).1.orders, o.side = "BID") ∧
    (runMMCycle cfg st env).1.action = some MMAction.quoted ∧
    (runMMCycle cfg st env).1.inventory_usd = some inv := by
  subst hinv
  have hq := runMMCycle_quote_path cfg st env mid ms p pp
    hd hsp hv hpos hpp hsl htp
  rw [hq]
  refine ⟨(quoteStep_suppression cfg env _ _ mid _
      hdry hmax rfl rfl rfl).1,
    (quoteStep_suppression cfg env _ _ mid _
      hdry hmax rfl rfl rfl).2.1,
    (quoteStep_suppression cfg env _ _ mid _
      hdry hmax rfl rfl rfl).2.2, ?_⟩
  rw [(quoteStep_preserves cfg env _ _ mid _).2.2]

/-- Example position: long 4.4 units at mid 100, i.e. inventory $440 =
88 % of the $500 cap. -/
def exPos440 : Position := ⟨Side.LONG, 22 / 5, 100, 100, 0, 1⟩

/-- Example environment carrying the $440 position. -/
def exEnv440 : CycleEnv :=
  { collateral := 1000, cancelOk := true, spreadResult := .ok (100, 10)
    positionResult := .ok (some exPos440), closeResult := .ok ()
    bidResult := .ok "b1", askResult := .ok "a1" }

/-- Witness for C6: `inventory_usd = 440`, `max_position_usd = 500`
(88 % ≥ 80 %) — the bid is suppressed, the ask is still attempted, and
the cycle quotes. -/
theorem side_suppression_witness :
    (runMMCycle exCfg exSt exEnv440).1.bidAttempted = false ∧
    (runMMCycle exCfg exSt exEnv440).1.askAttempted = true ∧
    (runMMCycle exCfg exSt exEnv440).1.action = some MMAction.quoted ∧
    (runMMCycle exCfg exSt exEnv440).1.inventory_usd = some 440 := by
  have h := side_suppression exCfg exSt exEnv440 100 10 exPos440 0 440
    (by norm_num [exSt, exEnv440, exCfg])
    rfl
    (by norm_num [exCfg])
    rfl
    (by norm_num [Position.pnl_percent, exPos440])
    (by norm_num [exCfg])
    (by norm_num [exCfg])
    (by norm_num [exPos440, side_long_ne_short])
    rfl
    (by norm_num [exCfg])
  have hbig : (8 / 10) * exCfg.max_position_usd ≤ (440 : ℚ) := by
    norm_num [exCfg]
  exact ⟨(h.1 hbig).1, (h.1 hbig).2.1, h.2.2.1, h.2.2.2⟩

end MM

namespace MM

/-- Per-leg behaviour of the live quote/placement step when neither side
is suppressed: both legs are attempted whatever the other leg's outcome,
a failing leg records its error per-side, and a succeeding leg's order
is in the result's order list. -/
lemma quoteStep_legs (cfg : MMConfig) (env : CycleEnv) (r : CycleResult)
    (vol mid inv : ℚ)
    (hdry : cfg.dry_run = false)
    (hnb : ¬(inv ≥ cfg.max_position_usd * (8 / 10)))
    (hna : ¬(inv ≤ -(cfg.max_position_usd * (8 / 10)))) :
    (quoteStep cfg env r vol mid inv).action = some MMAction.quoted ∧
    (quoteStep cfg env r vol mid inv).bidAttempted = true ∧
    (quoteStep cfg env r vol mid inv).askAttempted = true ∧
    (∀ e, env.bidResult = Except.error e →
      (quoteStep cfg env r vol mid inv).bid_error = some e) ∧
    (∀ e, env.askResult = Except.error e →
      (quoteStep cfg env r vol mid inv).ask_error = some e) ∧
    (∀ oid, env.askResult = Except.ok oid →
      ∃ o ∈ (quoteStep cfg env r vol mid inv).orders,
        o.side = "ASK" ∧ o.id = oid) ∧
    (∀ oid, env.bidResult = Except.ok oid →
      ∃ o ∈ (quoteStep cfg env r vol mid inv).orders,
        o.side = "BID" ∧ o.id = oid) := by
  unfold quoteStep
  simp only [hdry, Bool.false_eq_true, if_false]
  rw [if_neg hnb, if_neg hna]
  simp only [if_true]
  rcases hbR : env.bidResult with e | oid <;>
    rcases haR : env.askResult with e2 | oid2
  · simp [hbR, haR]
  · simp [hbR, haR]
    exact ⟨⟨"ASK", (runnerQuote cfg vol mid inv).ask, oid2⟩,
      Or.inr rfl, rfl, rfl⟩
  · simp [hbR, haR]
    exact ⟨⟨"BID", (runnerQuote cfg vol mid inv).bid, oid⟩,
      Or.inr rfl, rfl, rfl⟩
  · simp [hbR, haR]
    exact ⟨⟨⟨"ASK", (runnerQuote cfg vol mid inv).ask, oid2⟩,
        Or.inr (Or.inr rfl), rfl, rfl⟩,
      ⟨⟨"BID", (runnerQuote cfg vol mid inv).bid, oid⟩,
        Or.inr (Or.inl rfl), rfl, rfl⟩⟩

end MM

namespace MM

/-- C7: Order-placement legs are independent.  In every live
(non-dry-run) quoting cycle (no breaker fired, neither side suppressed),
both legs are attempted regardless of the other leg's outcome: a failing
bid leg records its error in the per-side `bid_error` field while the
ask leg is still attempted (and its order is in the result when it
succeeds), symmetrically for a failing ask leg, and the cycle still
completes with the `quoted` action rather than aborting. -/
theorem order_legs_independent (cfg : MMConfig) (st : MMState)
    (env : CycleEnv) (mid ms : ℚ) (p : Position) (pp inv : ℚ)
    (hd : ¬(env.collateral - (if st.starting_balance = 0 then env.collateral
        else st.starting_balance) ≤ -cfg.daily_loss_limit_usd))
    (hsp : env.spreadResult = Except.ok (mid, ms))
    (hv : ¬(cfg.vol_enabled = true ∧
      calculate_volatility (lastN 30 (st.last_prices ++ [mid])) >
        cfg.vol_pause_threshold_pct))
    (hpos : env.positionResult = Except.ok (some p))
    (hpp : p.pnl_percent = some pp)
    (hsl : ¬(pp ≤ -cfg.stop_loss_pct))
    (htp : ¬(pp ≥ cfg.take_profit_pct))
    (hinv : inv = (if p.side = Side.SHORT then -(p.size * mid)
      else p.size * mid))
    (hdry : cfg.dry_run = false)
    (hnb : ¬(inv ≥ cfg.max_position_usd * (8 / 10)))
    (hna : ¬(inv ≤ -(cfg.max_position_usd * (8 / 10)))) :
    (runMMCycle cfg st env).1.action = some MMAction.quoted ∧
    (runMMCycle cfg st env).1.bidAttempted = true ∧
    (runMMCycle cfg st env).1.askAttempted = true ∧
    (∀ e, env.bidResult = Except.error e →
      (runMMCycle cfg st env).1.bid_error = some e) ∧
    (∀ e, env.askResult = Except.error e →
      (runMMCycle cfg st env).1.ask_error = some e) ∧
    (∀ oid, env.askResult = Except.ok oid →
      ∃ o ∈ (runMMCycle cfg st env).1.orders, o.side = "ASK" ∧ o.id = oid) ∧
    (∀ oid, env.bidResult = Except.ok oid →
      ∃ o ∈ (runMMCycle cfg st env).1.orders, o.side = "BID" ∧ o.id = oid) := by
  subst hinv
  rw [runMMCycle_quote_path cfg st env mid ms p pp hd hsp hv hpos hpp hsl htp]
  exact quoteStep_legs cfg env _ _ mid _ hdry hnb hna

/-- Example position: long 1 unit at mid 100 ($100 inventory, well under
the 80 % suppression threshold). -/
def exPosSmall : Position := ⟨Side.LONG, 1, 100, 100, 0, 1⟩

/-- Example environment in which the bid leg fails with an exchange
error while the ask leg succeeds. -/
def exEnvBidFail : CycleEnv :=
  { collateral := 1000, cancelOk := true, spreadResult := .ok (100, 10)
    positionResult := .ok (some exPosSmall), closeResult := .ok ()
    bidResult := .error "insufficient balance", askResult := .ok "a1" }

/-- Witness for C7: the bid leg fails, its error is recorded per-side,
the ask leg is still attempted, and the cycle completes as `quoted`. -/
theorem order_legs_independent_witness :
    (runMMCycle exCfg exSt exEnvBidFail).1.action = some MMAction.quoted ∧
    (runMMCycle exCfg exSt exEnvBidFail).1.bidAttempted = true ∧
    (runMMCycle exCfg exSt exEnvBidFail).1.askAttempted = true ∧
    (runMMCycle exCfg exSt exEnvBidFail).1.bid_error =
      some "insufficient balance" := by
  have h := order_legs_independent exCfg exSt exEnvBidFail 100 10
    exPosSmall 0 100
    (by norm_num [exSt, exEnvBidFail, exCfg])
    rfl
    (by norm_num [exCfg])
    rfl
    (by norm_num [Position.pnl_percent, exPosSmall])
    (by norm_num [exCfg])
    (by norm_num [exCfg])
    (by norm_num [exPosSmall, side_long_ne_short])
    rfl
    (by norm_num [exCfg])
    (by norm_num [exCfg])
  exact ⟨h.1, h.2.1, h.2.2.1, h.2.2.2.1 "insufficient balance" rfl⟩

end MM
